import Mathlib

/-!
Shallow embedding of the Mimir voice-pipeline core
(`moshi/mimir_orchestrator.py`, `moshi/integrations/whisper/engine.py`,
`moshi/integrations/whisper/adapter.py`, `moshi/integrations/ollama/client.py`,
`moshi/integrations/ollama/adapter.py`).

Conventions of the embedding:
* Python floats are modelled by `ℚ` (exact arithmetic; the numeric claims
  carry an explicit 1-sample rounding tolerance that absorbs this gap).
* `numpy` arrays of audio samples are `List ℚ`.
* The external engines (the Whisper acoustic model, the Ollama HTTP stream,
  the XTTS synthesis model) are out of scope per the spec and are modelled
  as oracles supplied per call: a function from the audio handed to the
  engine to the value it returns, or a list of stream events.
* Raising Python code is modelled with `Except PyErr`; `try/finally` and
  `try/except` blocks are translated branch by branch.
* The RMS voice-activity test `sqrt(mean(audio**2)) > threshold` is embedded
  as `mean(audio**2) > threshold^2`, which is equivalent for a nonnegative
  threshold and keeps the definition inside `ℚ`.
-/

/-- Python exception, carrying its message. -/
abbrev PyErr := String

/-- Whitespace characters removed by Python `str.strip()` (ASCII subset:
space, tab, newline, carriage return, vertical tab, form feed). -/
def pyWhitespace (c : Char) : Bool :=
  c = ' ' || c = '\t' || c = '\n' || c = '\r' || c = Char.ofNat 11 || c = Char.ofNat 12

/-- Python `str.strip()`: drop leading and trailing whitespace. -/
def pyStrip (s : String) : String :=
  ⟨((s.data.dropWhile pyWhitespace).reverse.dropWhile pyWhitespace).reverse⟩

/-- Model of `WhisperConfig` dataclass (whisper/engine.py). Only the fields the
pipeline logic reads are carried; rates and durations are `ℚ` seconds. -/
structure WhisperConfig where
  sample_rate : ℚ := 16000
  vad_enabled : Bool := true
  vad_threshold : ℚ := 1/50        -- 0.02
  silence_duration : ℚ := 3/2      -- 1.5 s
  min_speech_duration : ℚ := 3/10  -- 0.3 s
  chunk_length : ℚ := 30           -- 30 s
deriving Repr

/-- Default-constructed `WhisperConfig()`. -/
def defaultWhisperConfig : WhisperConfig := {}

/-- Mutable state of `WhisperEngine`: the audio buffer and the VAD state
(`_silence_start`, `_is_speech_active`). -/
structure EngineState where
  buffer : List ℚ
  silence_start : Option ℚ
  speech_active : Bool
deriving Repr, DecidableEq

/-- Model of `WhisperEngine.append_audio`: concatenate the chunk onto the buffer. -/
def append_audio (s : EngineState) (chunk : List ℚ) : EngineState :=
  { s with buffer := s.buffer ++ chunk }

/-- Model of `WhisperEngine.get_buffer_duration`: buffer length over the sample rate. -/
def get_buffer_duration (cfg : WhisperConfig) (s : EngineState) : ℚ :=
  (s.buffer.length : ℚ) / cfg.sample_rate

/-- Model of `WhisperEngine.clear_buffer`: empty the buffer and reset the VAD state. -/
def clear_buffer (_s : EngineState) : EngineState :=
  { buffer := [], silence_start := none, speech_active := false }

/-- Model of `WhisperEngine._detect_voice_activity`: energy-based VAD.  The source
compares `sqrt(mean(audio**2)) > vad_threshold`; squaring both sides gives
the equivalent rational test embedded here.  (For an empty chunk `np.mean`
yields NaN and the Python comparison is false; here the sum-over-zero-length
division yields `0` and the comparison is likewise false.) -/
def detect_voice_activity (cfg : WhisperConfig) (audio : List ℚ) : Bool :=
  if cfg.vad_enabled = false then true
  else decide ((audio.map (fun x => x * x)).sum / (audio.length : ℚ) > cfg.vad_threshold ^ 2)

/-- Model of `WhisperEngine.should_transcribe`: decide whether to finalize now, and
update the VAD state.  Translated check for check: buffer-full trigger,
too-short guard, then the voice/silence bookkeeping.  `now` is the value
`time.time()` returns during this call. -/
def should_transcribe (cfg : WhisperConfig) (s : EngineState) (current_audio : List ℚ)
    (now : ℚ) : Bool × EngineState :=
  let has_voice := detect_voice_activity cfg current_audio
  let buffer_duration := get_buffer_duration cfg s
  if buffer_duration ≥ cfg.chunk_length then
    (true, s)
  else if buffer_duration < cfg.min_speech_duration then
    (false, s)
  else if has_voice then
    (false, { s with speech_active := true, silence_start := none })
  else if s.speech_active then
    match s.silence_start with
    | none => (false, { s with silence_start := some now })
    | some t0 =>
      if now - t0 ≥ cfg.silence_duration then (true, s) else (false, s)
  else
    (false, s)

/-- Model of `WhisperStreamingASR.process_audio` with `_running = true`: append the
chunk, then evaluate `should_transcribe` on it. -/
def process_audio (cfg : WhisperConfig) (s : EngineState) (chunk : List ℚ)
    (now : ℚ) : Bool × EngineState :=
  should_transcribe cfg (append_audio s chunk) chunk now

/-- Normalization performed by `transcribe_buffer` before handing the buffer
to the Whisper model: divide by the max absolute value when it exceeds 1. -/
def normalize_buffer (audio : List ℚ) : List ℚ :=
  let max_val := (audio.map (fun x => |x|)).foldr max 0
  if max_val > 1 then audio.map (fun x => x / max_val) else audio

/-- Model of `WhisperEngine.transcribe_buffer`.  `model_loaded` reflects whether
`load_model()` ran; `asr_model` is the external Whisper model oracle, mapping
the normalized audio handed to `model.transcribe` to the raw `result["text"]`
it returns (or the exception it raises, which the source catches).  Returns
the transcription result (`none` for Python `None`), the resulting engine
state, and the number of times the acoustic model was invoked. -/
def transcribe_buffer (s : EngineState) (model_loaded : Bool)
    (asr_model : List ℚ → Except PyErr String) :
    Except PyErr (Option String × EngineState × ℕ) :=
  if model_loaded = false then
    .error "Modello non caricato. Chiama load_model() prima."
  else if s.buffer.length = 0 then
    .ok (none, s, 0)
  else
    match asr_model (normalize_buffer s.buffer) with
    | .ok raw =>
      let text := pyStrip raw
      .ok (if text = "" then none else some text, clear_buffer s, 1)
    | .error _ =>
      -- the source catches the exception, clears the buffer, returns None
      .ok (none, clear_buffer s, 1)

/-! ## Resampler (`whisper/adapter.py`, `WhisperMimiAdapter.resample_audio`) -/

/-- Model of `np.linspace(start, stop, num)` with the default inclusive endpoint. -/
def linspace (start stop : ℚ) (num : ℕ) : List ℚ :=
  if num = 0 then []
  else if num = 1 then [start]
  else (List.range num).map (fun (i : ℕ) => start + (stop - start) * (i : ℚ) / ((num : ℚ) - 1))

/-- Model of `np.interp(x, np.arange(len(fp)), fp)` at a single point `x`, for
nonempty `fp`: clamp below 0 and above `len(fp) - 1`, linear in between. -/
def interpAt (fp : List ℚ) (x : ℚ) : ℚ :=
  if x ≤ 0 then fp.headD 0
  else if x ≥ (fp.length : ℚ) - 1 then fp.getLastD 0
  else
    let i := (⌊x⌋).toNat
    fp.getD i 0 + (x - (i : ℚ)) * (fp.getD (i + 1) 0 - fp.getD i 0)

/-- Model of `WhisperMimiAdapter.resample_audio`.  Equal rates return the input.
Otherwise `new_length = int(len(audio) / from_sr * to_sr)` (Python `int`
truncates; the value is nonnegative, so this is the floor) and the output is
linear interpolation on a uniform index grid.  `np.interp` raises
`ValueError` when its sample-point array (`np.arange(len(audio))`) is empty,
which the source does not guard against. -/
def resample_audio (audio : List ℚ) (from_sr to_sr : ℕ) :
    Except PyErr (List ℚ) :=
  if from_sr = to_sr then .ok audio
  else
    let duration : ℚ := (audio.length : ℚ) / (from_sr : ℚ)
    let new_length : ℕ := (⌊duration * (to_sr : ℚ)⌋).toNat
    let indices := linspace 0 ((audio.length : ℚ) - 1) new_length
    if audio.length = 0 then .error "array of sample points is empty"
    else .ok (indices.map (interpAt audio))

/-! ## Generation stack (`ollama/client.py`, `ollama/adapter.py`)

The Ollama HTTP stream behind `OllamaClient.generate` is external; one call
to it is modelled by a list of `GenEvent`s: the tokens it yields in order,
optionally ended by the exception it raises mid-stream (events after a
`genErr` are unreachable and ignored, as the Python stream is dead).  The
async generators `OllamaClient.chat` and `OllamaLMAdapter.generate_response`
are modelled as producers of item lists; history mutations that the source
performs when a generator is resumed past its last yield are attached to the
terminal item, so that a consumer that abandons the stream early also skips
them, exactly as in Python. -/

/-- One event of the underlying Ollama token stream. -/
inductive GenEvent where
  | token (s : String)
  | genErr (e : PyErr)
deriving Repr, DecidableEq

/-- One entry of `OllamaClient._conversation_history`. -/
structure Msg where
  role : String
  content : String
deriving Repr, DecidableEq

/-- Items produced by the `OllamaClient.chat` generator: its yielded tokens,
then either normal termination (carrying the assistant text appended to
history after the loop) or the propagated stream exception. -/
inductive ChatItem where
  | tok (s : String)
  | fin (assistant_text : String)
  | err (e : PyErr)
deriving Repr, DecidableEq

/-- The token loop of `OllamaClient.chat`: accumulate `response_text` while
yielding; on normal end of the stream append `{role: assistant, content:
response_text.strip()}` (represented by `fin`); on a stream exception the
append is skipped and the exception propagates (`err`). -/
def chatItems (acc : String) : List GenEvent → List ChatItem
  | [] => [.fin (pyStrip acc)]
  | .token s :: rest => .tok s :: chatItems (acc ++ s) rest
  | .genErr e :: _ => [.err e]

/-- The fixed fallback sentence `OllamaLMAdapter.generate_response` yields
when the underlying chat stream raises. -/
def fallbackMessage : String :=
  "Mi dispiace, ho avuto un problema nel generare la risposta."

/-- Items produced by the `OllamaLMAdapter.generate_response` generator. -/
inductive AdaptItem where
  | tok (s : String)
  /-- Normal termination; `some text` when the inner `chat` generator was
  driven to completion and appended the assistant entry, `none` when the
  adapter caught a stream exception (no assistant entry was appended). -/
  | fin (assistant_append : Option String)
deriving Repr, DecidableEq

/-- Model of `OllamaLMAdapter.generate_response`: forward every `chat` token; when
`chat` raises, catch the exception, yield the fixed fallback message, and
terminate normally. -/
def adapterItems : List ChatItem → List AdaptItem
  | [] => []
  | .tok s :: rest => .tok s :: adapterItems rest
  | .fin a :: _ => [.fin (some a)]
  | .err _ :: _ => [.tok fallbackMessage, .fin none]

/-- The token stream the orchestrator receives from the adapter for one call
whose underlying Ollama stream produced `events`. -/
def adapterTokens (events : List GenEvent) : List String :=
  (adapterItems (chatItems "" events)).filterMap
    (fun it => match it with | .tok s => some s | .fin _ => none)

/-- Model of `MimirOrchestrator.generate_response`, composed with the adapter and
`chat`.  `hist` is the conversation history on entry; `cb` models the
optional `on_response_text` callback (`some f` when installed, where `f tok`
is the exception the callback raises on that token, if any).  `chat` appends
the user entry when the generator first runs; the consumer loop accumulates
`response_text`, invoking the callback per token — a callback exception
aborts the loop, closes the generators (skipping the assistant append) and
propagates.  Returns the `.strip()`ped accumulated response or the
propagated exception, together with the history after the call. -/
def consumeAdapter (cb : Option (String → Option PyErr)) (hist : List Msg)
    (acc : String) : List AdaptItem → Except PyErr String × List Msg
  | [] => (.ok (pyStrip acc), hist)
  | .tok s :: rest =>
    let acc := acc ++ s
    match cb with
    | some f =>
      match f s with
      | some e => (.error e, hist)
      | none => consumeAdapter cb hist acc rest
    | none => consumeAdapter cb hist acc rest
  | .fin a :: _ =>
    match a with
    | some t => (.ok (pyStrip acc), hist ++ [⟨"assistant", t⟩])
    | none => (.ok (pyStrip acc), hist)

/-- Model of `MimirOrchestrator.generate_response` for one turn: user entry appended
by `chat` at generator start, then the stream consumed as above. -/
def generate_response (hist : List Msg) (user_text : String)
    (events : List GenEvent) (cb : Option (String → Option PyErr)) :
    Except PyErr String × List Msg :=
  consumeAdapter cb (hist ++ [⟨"user", user_text⟩]) ""
    (adapterItems (chatItems "" events))

/-! ## Turn orchestrator (`mimir_orchestrator.py`) -/

/-- Orchestrator state: the `_processing` / `_initialized` flags, the
conversation history held by the Ollama client, and the Whisper engine
state.  (`_initialized = true` implies the Whisper model was loaded by
`initialize()`.) -/
structure OrchState where
  processing : Bool
  initialized : Bool
  history : List Msg
  whisper : EngineState
deriving Repr, DecidableEq

/-- The optional orchestrator callbacks (`None` by default).  Each is
modelled by the exception it raises on a given argument, if any. -/
structure Callbacks where
  on_transcription : Option (String → Option PyErr)
  on_response_text : Option (String → Option PyErr)
  on_audio_ready : Option (List ℚ → Option PyErr)

/-- Callbacks left unset, as after `MimirOrchestrator.__init__`. -/
def noCallbacks : Callbacks := ⟨none, none, none⟩

/-- External behaviour for one conversation turn: the `time.time()` value
read by `should_transcribe`, the Whisper model oracle, the Ollama stream
events, and the XTTS model oracle (text to synthesized samples, or the
exception `tts.tts` raises, which `XTTSEngine.synthesize` catches). -/
structure TurnEnv where
  now : ℚ
  asr_model : List ℚ → Except PyErr String
  gen_events : List GenEvent
  tts_model : String → Except PyErr (List ℚ)

/-- Number of calls made to each external engine during a turn. -/
structure Calls where
  asr : ℕ
  gen : ℕ
  tts : ℕ
deriving Repr, DecidableEq

/-- Model of `MimirOrchestrator.process_audio_chunk`: skip empty chunks; feed the
chunk to the streaming ASR; when it signals a boundary, transcribe the
buffer and fire `on_transcription` on nonempty text.  Returns the
transcribed text (or `none`), the updated state, and the ASR call count;
`.error` when the orchestrator is uninitialized or the callback raises. -/
def process_audio_chunk (cfg : WhisperConfig) (cbs : Callbacks) (st : OrchState)
    (chunk : List ℚ) (env : TurnEnv) :
    Except PyErr (Option String) × OrchState × ℕ :=
  if st.initialized = false then
    (.error "Mimir non inizializzato. Chiama initialize()", st, 0)
  else if chunk.length > 0 then
    let (st_result, w1) := process_audio cfg st.whisper chunk env.now
    if st_result then
      match transcribe_buffer w1 true env.asr_model with
      | .ok (text, w2, n) =>
        let st2 := { st with whisper := w2 }
        match text, cbs.on_transcription with
        | some t, some f =>
          (match f t with
           | some e => (.error e, st2, n)
           | none => (.ok (some t), st2, n))
        | _, _ => (.ok text, st2, n)
      | .error e => (.error e, { st with whisper := w1 }, 0)
    else
      (.ok none, { st with whisper := w1 }, 0)
  else
    (.ok none, st, 0)

/-- Model of `MimirOrchestrator.synthesize_speech` with `_initialized = true`:
`XTTSEngine.synthesize` returns `None` for empty text and swallows `tts.tts`
exceptions into `None`; on audio, the `on_audio_ready` callback runs and may
raise.  Returns the audio option and the TTS call count. -/
def synthesize_speech (cbs : Callbacks) (text : String) (env : TurnEnv) :
    Except PyErr (Option (List ℚ)) × ℕ :=
  if pyStrip text = "" then (.ok none, 0)
  else
    match env.tts_model (pyStrip text) with
    | .ok wav =>
      (match cbs.on_audio_ready with
       | some f =>
         (match f wav with
          | some e => (.error e, 1)
          | none => (.ok (some wav), 1))
       | none => (.ok (some wav), 1))
    | .error _ => (.ok none, 1)

/-- Body of the `try:` block of `MimirOrchestrator.process_conversation_turn`
(run with `_processing` already set): ASR, then generation, then synthesis,
with the two falsy-text early returns. -/
def turnBody (cfg : WhisperConfig) (cbs : Callbacks) (st : OrchState)
    (chunk : List ℚ) (env : TurnEnv) :
    Except PyErr (Option (List ℚ)) × OrchState × Calls :=
  match process_audio_chunk cfg cbs st chunk env with
  | (.error e, st1, n) => (.error e, st1, ⟨n, 0, 0⟩)
  | (.ok user_text, st1, n) =>
    match user_text with
    | none => (.ok none, st1, ⟨n, 0, 0⟩)
    | some t =>
      if t = "" then (.ok none, st1, ⟨n, 0, 0⟩)
      else
        let (genResult, hist1) := generate_response st1.history t env.gen_events cbs.on_response_text
        let st2 := { st1 with history := hist1 }
        match genResult with
        | .error e => (.error e, st2, ⟨n, 1, 0⟩)
        | .ok response_text =>
          if response_text = "" then (.ok none, st2, ⟨n, 1, 0⟩)
          else
            match synthesize_speech cbs response_text env with
            | (.error e, m) => (.error e, st2, ⟨n, 1, m⟩)
            | (.ok audio, m) => (.ok audio, st2, ⟨n, 1, m⟩)

/-- Model of `MimirOrchestrator.process_conversation_turn`: drop the request when a
turn is already in flight; otherwise set `_processing`, run the turn body,
and reset `_processing` in the `finally:` block on every exit path. -/
def process_conversation_turn (cfg : WhisperConfig) (cbs : Callbacks)
    (st : OrchState) (chunk : List ℚ) (env : TurnEnv) :
    Except PyErr (Option (List ℚ)) × OrchState × Calls :=
  if st.processing then
    (.ok none, st, ⟨0, 0, 0⟩)
  else
    let st1 := { st with processing := true }
    let (r, st2, calls) := turnBody cfg cbs st1 chunk env
    (r, { st2 with processing := false }, calls)

/-! ## Auxiliary definitions used by the statements -/

/-- The token an Ollama stream event contributes to the accumulated
response (`""` for an exception, which contributes nothing). -/
def eventText : GenEvent → String
  | .token s => s
  | .genErr _ => ""

/-- Whether a stream event is an ordinary token. -/
def isTokenEvent : GenEvent → Bool
  | .token _ => true
  | .genErr _ => false

/-- In-order concatenation of the tokens of a stream. -/
def joinTokens : List GenEvent → String
  | [] => ""
  | e :: rest => eventText e ++ joinTokens rest

/-- The token sequence the orchestrator observes from one adapter call, as
a direct recursion on the underlying stream events (tokens up to the first
exception, which the adapter replaces by `fallbackMessage`). -/
def streamTokens : List GenEvent → List String
  | [] => []
  | .token s :: rest => s :: streamTokens rest
  | .genErr _ :: _ => [fallbackMessage]

/-- Drive the streaming ASR over a timed sequence of audio chunks:
`process_audio` on each `(chunk, time)` event in order, collecting each
`should_transcribe` verdict. -/
def runChunks (cfg : WhisperConfig) (s : EngineState) :
    List (List ℚ × ℚ) → EngineState × List Bool
  | [] => (s, [])
  | (c, t) :: rest =>
    let (b, s1) := process_audio cfg s c t
    let (sf, bs) := runChunks cfg s1 rest
    (sf, b :: bs)

/-- Total number of samples in a timed chunk sequence. -/
def totalLen (evs : List (List ℚ × ℚ)) : ℕ :=
  (evs.map (fun p => p.1.length)).sum

/-! ## Theorems -/

/-- C4.  Round-trip turn accumulation: with user input `"Ciao"` and the
generation engine yielding the fragments `["Cia", "o a te"]` in order, the
orchestrator accumulates the trimmed concatenation `"Ciao a te"` and exactly
two history entries are appended for the turn, first the user entry then the
assistant entry. -/
theorem round_trip_accumulation (hist : List Msg) :
    generate_response hist "Ciao" [.token "Cia", .token "o a te"] none
      = (.ok "Ciao a te", hist ++ [⟨"user", "Ciao"⟩, ⟨"assistant", "Ciao a te"⟩]) := by
  have h : generate_response hist "Ciao" [.token "Cia", .token "o a te"] none
      = (.ok "Ciao a te",
         (hist ++ [⟨"user", "Ciao"⟩]) ++ [⟨"assistant", "Ciao a te"⟩]) := rfl
  rw [h, List.append_assoc]
  rfl

/-- C7 counterexample.  `resample_audio` on the empty input with differing
rates raises (`np.interp` refuses the empty sample-point array) instead of
returning the empty sequence. -/
theorem resample_empty_raises :
    resample_audio [] 24000 16000 = .error "array of sample points is empty" := by
  rfl

/-- The function `linspace` always produces exactly `num` points. -/
theorem linspace_length (a b : ℚ) (n : ℕ) : (linspace a b n).length = n := by
  unfold linspace
  by_cases h0 : n = 0
  · subst h0; simp
  · by_cases h1 : n = 1
    · subst h1; simp
    · rw [if_neg h0, if_neg h1, List.length_map, List.length_range]

/-- C7 amended.  `resample_audio` is a pure total function of its inputs;
for positive rates it returns without raising whenever the input is nonempty
or the rates are equal, and with equal rates it returns the input unchanged
(hence empty input with equal rates produces empty output).  The only error
condition is the empty input with differing rates, where `np.interp` raises
`ValueError` (see `resample_empty_raises`). -/
theorem resample_total_amended (audio : List ℚ) (f t : ℕ)
    (hf : 0 < f) (ht : 0 < t) :
    ((audio ≠ [] ∨ f = t) → ∃ out, resample_audio audio f t = .ok out) ∧
    (f = t → resample_audio audio f t = .ok audio) := by
  constructor
  · rintro (hne | heq)
    · by_cases hft : f = t
      · exact ⟨audio, by simp [resample_audio, hft]⟩
      · have hlen : ¬ audio.length = 0 := by simpa using hne
        exact ⟨_, by rw [resample_audio, if_neg hft, if_neg hlen]⟩
    · exact ⟨audio, by simp [resample_audio, heq]⟩
  · intro heq
    simp [resample_audio, heq]

/-- Witness for `resample_total_amended` at a concrete input. -/
theorem resample_total_amended_witness :
    (([1, 2] : List ℚ) ≠ [] ∨ 16000 = 24000) ∧
    (∃ out, resample_audio [1, 2] 16000 24000 = .ok out) := by
  refine ⟨Or.inl (by simp), ?_⟩
  exact (resample_total_amended [1, 2] 16000 24000 (by decide) (by decide)).1
    (Or.inl (by simp))

/-- C6.  For every nonempty input and differing positive rates,
`resample_audio` returns samples, and the output length differs from
`round(len(input) * toRate / fromRate)` by at most one sample (the source
truncates the float product where the spec rounds). -/
theorem resample_output_length (audio : List ℚ) (f t : ℕ)
    (hne : audio ≠ []) (hft : f ≠ t) (hf : 0 < f) (ht : 0 < t) :
    ∃ out, resample_audio audio f t = .ok out ∧
      |(out.length : ℤ) - round ((audio.length : ℚ) * t / f)| ≤ 1 := by
  have hlen : ¬ audio.length = 0 := by simpa using hne
  refine ⟨_, by rw [resample_audio, if_neg hft, if_neg hlen], ?_⟩
  rw [List.length_map, linspace_length]
  set x : ℚ := (audio.length : ℚ) / (f : ℚ) * (t : ℚ) with hxdef
  have hx : (audio.length : ℚ) * t / f = x := by rw [hxdef]; ring
  have hx0 : (0 : ℚ) ≤ x := by
    rw [hxdef]; positivity
  have htn : ((⌊x⌋.toNat : ℤ)) = ⌊x⌋ := Int.toNat_of_nonneg (Int.floor_nonneg.mpr hx0)
  rw [hx, htn]
  have hr : round x = ⌊x + 1/2⌋ := round_eq x
  have hle : ⌊x⌋ ≤ round x := by
    rw [hr]; exact Int.floor_le_floor (by linarith)
  have hge : round x ≤ ⌊x⌋ + 1 := by
    rw [hr]
    calc ⌊x + 1/2⌋ ≤ ⌊x + 1⌋ := Int.floor_le_floor (by linarith)
    _ = ⌊x⌋ + 1 := by
        have := Int.floor_add_int x 1
        simpa using this
  rw [abs_le]
  omega

/-- Witness for `resample_output_length` at a concrete input. -/
theorem resample_output_length_witness :
    ∃ out, resample_audio [1, 2] 16000 24000 = .ok out ∧
      |(out.length : ℤ) - round ((([1, (2 : ℚ)].length : ℚ)) * 24000 / 16000)| ≤ 1 :=
  resample_output_length [1, 2] 16000 24000 (by simp) (by decide) (by decide) (by decide)

/-- C8.  `transcribe_buffer` with the model loaded and an empty audio buffer
returns `None` (the empty result) without raising, without invoking the
acoustic model, and without touching the engine state. -/
theorem finalize_empty_buffer (s : EngineState)
    (asr_model : List ℚ → Except PyErr String) (h : s.buffer = []) :
    transcribe_buffer s true asr_model = .ok (none, s, 0) := by
  rw [transcribe_buffer]
  simp [h]

/-- Witness for `finalize_empty_buffer` at a concrete input. -/
theorem finalize_empty_buffer_witness :
    (⟨[], none, false⟩ : EngineState).buffer = [] ∧
    transcribe_buffer ⟨[], none, false⟩ true (fun _ => .ok "testo")
      = .ok (none, ⟨[], none, false⟩, 0) :=
  ⟨rfl, finalize_empty_buffer _ _ rfl⟩

/-- C1.  Single-flight: while a turn is in flight (`_processing` set), a
call to `process_conversation_turn` returns `None` immediately: no engine is
invoked, and neither the history nor any other orchestrator state changes;
the request is dropped, not queued. -/
theorem single_flight_drop (cfg : WhisperConfig) (cbs : Callbacks)
    (st : OrchState) (chunk : List ℚ) (env : TurnEnv)
    (h : st.processing = true) :
    process_conversation_turn cfg cbs st chunk env = (.ok none, st, ⟨0, 0, 0⟩) := by
  rw [process_conversation_turn, if_pos h]

/-- Witness for `single_flight_drop` at a concrete input. -/
theorem single_flight_drop_witness :
    (⟨true, true, [⟨"user", "ciao"⟩], ⟨[1], none, true⟩⟩ : OrchState).processing = true ∧
    process_conversation_turn defaultWhisperConfig noCallbacks
        ⟨true, true, [⟨"user", "ciao"⟩], ⟨[1], none, true⟩⟩ [1, 2]
        ⟨0, fun _ => .ok "testo", [.token "a"], fun _ => .ok [1]⟩
      = (.ok none, ⟨true, true, [⟨"user", "ciao"⟩], ⟨[1], none, true⟩⟩, ⟨0, 0, 0⟩) :=
  ⟨rfl, single_flight_drop _ _ _ _ _ rfl⟩

/-- The adapter stream equals `streamTokens` of the underlying events: every
token is forwarded, and the first stream exception is replaced by the
fallback sentence; the accumulator only influences the history side. -/
theorem adapterItems_chat_tokens :
    ∀ (evs : List GenEvent) (acc : String),
      (adapterItems (chatItems acc evs)).filterMap
        (fun it => match it with | .tok s => some s | .fin _ => none)
        = streamTokens evs := by
  intro evs
  induction evs with
  | nil => intro acc; rfl
  | cons e rest ih =>
    intro acc
    cases e with
    | token s => simpa [chatItems, adapterItems, streamTokens] using ih (acc ++ s)
    | genErr e => rfl

/-- The function `streamTokens` distributes over a token prefix. -/
theorem streamTokens_token_prefix (pre : List String) (evs : List GenEvent) :
    streamTokens (pre.map .token ++ evs) = pre ++ streamTokens evs := by
  induction pre with
  | nil => rfl
  | cons s rest ih => simpa [streamTokens] using ih

/-- C10.  `OllamaLMAdapter.generate_response` never propagates a failure of
the underlying chat stream: when the stream raises after any token prefix,
the adapter emits exactly that prefix followed by the fixed fallback
sentence and terminates normally (`adapterTokens` is a total function into
plain token lists), and the result coincides with what the adapter emits for
a stream that successfully yields those very fragments — so orchestrator-path
callers cannot distinguish an engine failure from a successful response. -/
theorem adapter_swallows_stream_failure (pre : List String) (e : PyErr)
    (rest : List GenEvent) :
    adapterTokens (pre.map .token ++ .genErr e :: rest) = pre ++ [fallbackMessage] ∧
    adapterTokens (pre.map .token ++ .genErr e :: rest)
      = adapterTokens ((pre ++ [fallbackMessage]).map .token) := by
  have hmain : ∀ evs : List GenEvent, adapterTokens evs = streamTokens evs :=
    fun evs => adapterItems_chat_tokens evs ""
  have h1 : adapterTokens (pre.map .token ++ .genErr e :: rest)
      = pre ++ [fallbackMessage] := by
    rw [hmain, streamTokens_token_prefix]; rfl
  refine ⟨h1, ?_⟩
  rw [h1, hmain]
  have := streamTokens_token_prefix (pre ++ [fallbackMessage]) []
  simpa [streamTokens] using this.symm

/-- With no per-token callback and no stream exception, consuming the
adapter stream accumulates the in-order token concatenation, returns it
trimmed, and lets `chat` append the assistant entry (its content being the
same trimmed concatenation). -/
theorem consumeAdapter_no_err (hist : List Msg) :
    ∀ (evs : List GenEvent) (acc : String),
      (∀ ev ∈ evs, isTokenEvent ev = true) →
      consumeAdapter none hist acc (adapterItems (chatItems acc evs))
        = (.ok (pyStrip (acc ++ joinTokens evs)),
           hist ++ [⟨"assistant", pyStrip (acc ++ joinTokens evs)⟩]) := by
  intro evs
  induction evs with
  | nil =>
    intro acc _
    simp [chatItems, adapterItems, consumeAdapter, joinTokens, String.append_empty]
  | cons e rest ih =>
    intro acc hall
    cases e with
    | token s =>
      have hrest : ∀ ev ∈ rest, isTokenEvent ev = true := by
        intro ev hev; exact hall ev (List.mem_cons_of_mem _ hev)
      have := ih (acc ++ s) hrest
      simp only [chatItems, adapterItems, consumeAdapter, this, joinTokens, eventText]
      rw [String.append_assoc]
    | genErr e =>
      have := hall (.genErr e) (List.mem_cons_self _ _)
      simp [isTokenEvent] at this

/-- The function `should_transcribe` never modifies the audio buffer. -/
theorem should_transcribe_buffer (cfg : WhisperConfig) (s : EngineState)
    (c : List ℚ) (now : ℚ) :
    ((should_transcribe cfg s c now).2).buffer = s.buffer := by
  rw [should_transcribe]
  repeat' split
  all_goals rfl

/-- After `process_audio`, the engine buffer is the old buffer with the
chunk appended. -/
theorem process_audio_buffer (cfg : WhisperConfig) (s : EngineState)
    (c : List ℚ) (now : ℚ) :
    ((process_audio cfg s c now).2).buffer = s.buffer ++ c := by
  rw [process_audio, should_transcribe_buffer]
  rfl

/-- The function `transcribe_buffer` on a nonempty buffer with a successfully returning
model: the raw text is trimmed, empty text becomes `None`, the buffer is
cleared, and the model is invoked once. -/
theorem transcribe_buffer_ok (s : EngineState) (raw : String)
    (asr_model : List ℚ → Except PyErr String)
    (hne : s.buffer ≠ []) (ha : asr_model (normalize_buffer s.buffer) = .ok raw) :
    transcribe_buffer s true asr_model
      = .ok (if pyStrip raw = "" then none else some (pyStrip raw), clear_buffer s, 1) := by
  have hlen : ¬ s.buffer.length = 0 := by simpa using hne
  rw [transcribe_buffer, if_neg (by simp), if_neg hlen, ha]

/-- The ASR stage of a turn with no callback installed, a nonempty chunk
that triggers finalization, and a successfully returning model: the buffer
(old content plus the chunk) is transcribed and cleared, and the trimmed
text (or `None` when it trims to empty) is returned with one model call. -/
theorem process_audio_chunk_triggered (cfg : WhisperConfig) (cbs : Callbacks)
    (st : OrchState)
    (chunk : List ℚ) (env : TurnEnv) (raw : String)
    (hcb : cbs.on_transcription = none)
    (hi : st.initialized = true) (hc : chunk ≠ [])
    (ht : (process_audio cfg st.whisper chunk env.now).1 = true)
    (ha : env.asr_model (normalize_buffer (st.whisper.buffer ++ chunk)) = .ok raw) :
    process_audio_chunk cfg cbs st chunk env
      = (.ok (if pyStrip raw = "" then none else some (pyStrip raw)),
         { st with whisper := clear_buffer (process_audio cfg st.whisper chunk env.now).2 },
         1) := by
  have hlen : 0 < chunk.length := List.length_pos.mpr hc
  have hbuf : ((process_audio cfg st.whisper chunk env.now).2).buffer
      = st.whisper.buffer ++ chunk := process_audio_buffer cfg st.whisper chunk env.now
  have hbne : ((process_audio cfg st.whisper chunk env.now).2).buffer ≠ [] := by
    rw [hbuf]; simp [hc]
  have htr : transcribe_buffer (process_audio cfg st.whisper chunk env.now).2 true
        env.asr_model
      = .ok (if pyStrip raw = "" then none else some (pyStrip raw),
             clear_buffer (process_audio cfg st.whisper chunk env.now).2, 1) :=
    transcribe_buffer_ok _ raw env.asr_model hbne (by rw [hbuf]; exact ha)
  rw [process_audio_chunk, if_neg (by rw [hi]; simp), if_pos hlen]
  rcases hpa : process_audio cfg st.whisper chunk env.now with ⟨b, w1⟩
  rw [hpa] at ht htr
  simp only at ht
  rw [ht]
  simp only [htr]
  by_cases hsr : pyStrip raw = ""
  · simp [hsr, hcb]
  · simp [hsr, hcb]

/-- Unfolding of `process_conversation_turn` when no turn is in flight: run
the body with the flag set, then clear the flag on the way out. -/
theorem process_conversation_turn_eq (cfg : WhisperConfig) (cbs : Callbacks)
    (st : OrchState) (chunk : List ℚ) (env : TurnEnv)
    (h : st.processing = false) :
    process_conversation_turn cfg cbs st chunk env
      = ((turnBody cfg cbs { st with processing := true } chunk env).1,
         { (turnBody cfg cbs { st with processing := true } chunk env).2.1 with
             processing := false },
         (turnBody cfg cbs { st with processing := true } chunk env).2.2) := by
  rw [process_conversation_turn, if_neg (by simp [h])]

/-- C5.  Empty transcription is a side-effect-free no-op: when the finalized
utterance transcribes to text that trims to empty, the turn returns `None`
with no history entries appended, no generation call, no synthesis call, and
the processing flag back to `false` (only the audio buffer is cleared, as on
every finalization). -/
theorem empty_transcription_noop (cfg : WhisperConfig) (st : OrchState)
    (chunk : List ℚ) (env : TurnEnv) (raw : String)
    (hp : st.processing = false) (hi : st.initialized = true) (hc : chunk ≠ [])
    (htrig : (process_audio cfg st.whisper chunk env.now).1 = true)
    (ha : env.asr_model (normalize_buffer (st.whisper.buffer ++ chunk)) = .ok raw)
    (hw : pyStrip raw = "") :
    process_conversation_turn cfg noCallbacks st chunk env
      = (.ok none,
         { st with whisper := clear_buffer (process_audio cfg st.whisper chunk env.now).2 },
         ⟨1, 0, 0⟩) := by
  obtain ⟨p, ini, hist, wst⟩ := st
  simp only at hp hi htrig ha ⊢
  subst hp
  subst hi
  have hpac : process_audio_chunk cfg noCallbacks ⟨true, true, hist, wst⟩ chunk env
      = (.ok none, ⟨true, true, hist, clear_buffer (process_audio cfg wst chunk env.now).2⟩, 1) := by
    rw [process_audio_chunk_triggered cfg noCallbacks ⟨true, true, hist, wst⟩ chunk env raw rfl rfl hc htrig ha]
    simp [hw]
  have hb : turnBody cfg noCallbacks ⟨true, true, hist, wst⟩ chunk env
      = (.ok none, ⟨true, true, hist, clear_buffer (process_audio cfg wst chunk env.now).2⟩,
         ⟨1, 0, 0⟩) := by
    rw [turnBody.eq_def, hpac]
  rw [process_conversation_turn_eq cfg noCallbacks ⟨false, true, hist, wst⟩ chunk env rfl, hb]

/-- Witness for `empty_transcription_noop` at a concrete input. -/
theorem empty_transcription_noop_witness :
    ((process_audio { sample_rate := 1, chunk_length := 0 }
        (⟨false, true, [⟨"user", "prima"⟩], ⟨[], none, false⟩⟩ : OrchState).whisper [1] 0).1
        = true) ∧
    pyStrip " " = "" ∧
    process_conversation_turn { sample_rate := 1, chunk_length := 0 } noCallbacks
        ⟨false, true, [⟨"user", "prima"⟩], ⟨[], none, false⟩⟩ [1]
        ⟨0, fun _ => .ok " ", [.token "x"], fun _ => .ok [1]⟩
      = (.ok none, ⟨false, true, [⟨"user", "prima"⟩], ⟨[], none, false⟩⟩, ⟨1, 0, 0⟩) := by
  have htrig : (process_audio { sample_rate := 1, chunk_length := 0 }
      (⟨[], none, false⟩ : EngineState) [1] 0).1 = true := by
    norm_num [process_audio, should_transcribe, append_audio, get_buffer_duration,
      detect_voice_activity]
  refine ⟨htrig, by decide, ?_⟩
  exact empty_transcription_noop { sample_rate := 1, chunk_length := 0 }
    ⟨false, true, [⟨"user", "prima"⟩], ⟨[], none, false⟩⟩ [1]
    ⟨0, fun _ => .ok " ", [.token "x"], fun _ => .ok [1]⟩ " "
    rfl rfl (by simp) htrig rfl (by decide)

/-- A turn whose generation stream completes without error but whose
concatenated text trims to empty: the turn aborts with `None` and no
synthesis call, yet the history receives both the user entry and an
assistant entry with empty content (appended unconditionally by
`OllamaClient.chat`). -/
theorem turn_with_empty_generation (cfg : WhisperConfig) (st : OrchState)
    (chunk : List ℚ) (env : TurnEnv) (raw : String)
    (hp : st.processing = false) (hi : st.initialized = true) (hc : chunk ≠ [])
    (htrig : (process_audio cfg st.whisper chunk env.now).1 = true)
    (ha : env.asr_model (normalize_buffer (st.whisper.buffer ++ chunk)) = .ok raw)
    (hraw : pyStrip raw ≠ "")
    (htok : ∀ ev ∈ env.gen_events, isTokenEvent ev = true)
    (hemp : pyStrip (joinTokens env.gen_events) = "") :
    process_conversation_turn cfg noCallbacks st chunk env
      = (.ok none,
         { st with
             whisper := clear_buffer (process_audio cfg st.whisper chunk env.now).2,
             history := st.history ++ [⟨"user", pyStrip raw⟩, ⟨"assistant", ""⟩] },
         ⟨1, 1, 0⟩) := by
  obtain ⟨p, ini, hist, wst⟩ := st
  simp only at hp hi htrig ha ⊢
  subst hp
  subst hi
  have hpac : process_audio_chunk cfg noCallbacks ⟨true, true, hist, wst⟩ chunk env
      = (.ok (some (pyStrip raw)),
         ⟨true, true, hist, clear_buffer (process_audio cfg wst chunk env.now).2⟩, 1) := by
    rw [process_audio_chunk_triggered cfg noCallbacks ⟨true, true, hist, wst⟩ chunk env raw rfl rfl hc htrig ha]
    simp [hraw]
  have hgen : generate_response hist (pyStrip raw) env.gen_events none
      = (.ok "", hist ++ [⟨"user", pyStrip raw⟩] ++ [⟨"assistant", ""⟩]) := by
    have h := consumeAdapter_no_err (hist ++ [⟨"user", pyStrip raw⟩]) env.gen_events "" htok
    have h0 : pyStrip ("" ++ joinTokens env.gen_events) = "" := hemp
    rw [h0] at h
    exact h
  have hb : turnBody cfg noCallbacks ⟨true, true, hist, wst⟩ chunk env
      = (.ok none,
         ⟨true, true, hist ++ [⟨"user", pyStrip raw⟩, ⟨"assistant", ""⟩],
          clear_buffer (process_audio cfg wst chunk env.now).2⟩,
         ⟨1, 1, 0⟩) := by
    rw [turnBody.eq_def, hpac]
    simp only [noCallbacks, hgen, List.append_assoc]
    rw [if_neg hraw]
    rfl
  rw [process_conversation_turn_eq cfg noCallbacks ⟨false, true, hist, wst⟩ chunk env rfl, hb]

/-- C2 counterexample.  A concrete turn whose generation stream yields no
fragments: the turn aborts and synthesis is skipped, but the conversation
history IS mutated after the user entry — `OllamaClient.chat` appends an
assistant entry with empty content, contradicting the claim that no
assistant entry is appended for the turn. -/
theorem empty_generation_appends_assistant_cx :
    process_conversation_turn { sample_rate := 1, chunk_length := 0 } noCallbacks
        ⟨false, true, [], ⟨[], none, false⟩⟩ [1]
        ⟨0, fun _ => .ok "ciao", [], fun _ => .ok []⟩
      = (.ok none,
         ⟨false, true, [⟨"user", "ciao"⟩, ⟨"assistant", ""⟩], ⟨[], none, false⟩⟩,
         ⟨1, 1, 0⟩) := by
  have htrig : (process_audio { sample_rate := 1, chunk_length := 0 }
      (⟨[], none, false⟩ : EngineState) [1] 0).1 = true := by
    norm_num [process_audio, should_transcribe, append_audio, get_buffer_duration,
      detect_voice_activity]
  exact turn_with_empty_generation { sample_rate := 1, chunk_length := 0 }
    ⟨false, true, [], ⟨[], none, false⟩⟩ [1]
    ⟨0, fun _ => .ok "ciao", [], fun _ => .ok []⟩ "ciao"
    rfl rfl (by simp) htrig rfl (by decide) (by simp) (by decide)

/-- C2 amended.  When the generation stream completes without error but its
concatenated text trims to empty, the turn aborts with `None` and no
synthesis call occurs — but the history receives both the user entry and an
assistant entry with empty content (appended unconditionally by
`OllamaClient.chat` after the stream ends). -/
theorem empty_generation_aborts_turn (cfg : WhisperConfig) (st : OrchState)
    (chunk : List ℚ) (env : TurnEnv) (raw : String)
    (hp : st.processing = false) (hi : st.initialized = true) (hc : chunk ≠ [])
    (htrig : (process_audio cfg st.whisper chunk env.now).1 = true)
    (ha : env.asr_model (normalize_buffer (st.whisper.buffer ++ chunk)) = .ok raw)
    (hraw : pyStrip raw ≠ "")
    (htok : ∀ ev ∈ env.gen_events, isTokenEvent ev = true)
    (hemp : pyStrip (joinTokens env.gen_events) = "") :
    process_conversation_turn cfg noCallbacks st chunk env
      = (.ok none,
         { st with
             whisper := clear_buffer (process_audio cfg st.whisper chunk env.now).2,
             history := st.history ++ [⟨"user", pyStrip raw⟩, ⟨"assistant", ""⟩] },
         ⟨1, 1, 0⟩) :=
  turn_with_empty_generation cfg st chunk env raw hp hi hc htrig ha hraw htok hemp

/-- Witness for `empty_generation_aborts_turn` at a concrete input. -/
theorem empty_generation_aborts_turn_witness :
    pyStrip "ciao" ≠ "" ∧
    pyStrip (joinTokens [.token " "]) = "" ∧
    process_conversation_turn { sample_rate := 1, chunk_length := 0 } noCallbacks
        ⟨false, true, [], ⟨[], none, false⟩⟩ [1]
        ⟨0, fun _ => .ok "ciao", [.token " "], fun _ => .ok []⟩
      = (.ok none,
         ⟨false, true, [⟨"user", "ciao"⟩, ⟨"assistant", ""⟩], ⟨[], none, false⟩⟩,
         ⟨1, 1, 0⟩) := by
  have htrig : (process_audio { sample_rate := 1, chunk_length := 0 }
      (⟨[], none, false⟩ : EngineState) [1] 0).1 = true := by
    norm_num [process_audio, should_transcribe, append_audio, get_buffer_duration,
      detect_voice_activity]
  refine ⟨by decide, by decide, ?_⟩
  exact empty_generation_aborts_turn { sample_rate := 1, chunk_length := 0 }
    ⟨false, true, [], ⟨[], none, false⟩⟩ [1]
    ⟨0, fun _ => .ok "ciao", [.token " "], fun _ => .ok []⟩ "ciao"
    rfl rfl (by simp) htrig rfl (by decide) (by decide) (by decide)

/-- Consuming the adapter stream only ever appends to the history it was
given, whatever the stream and callback behaviour. -/
theorem consumeAdapter_history (cb : Option (String → Option PyErr)) (hist : List Msg) :
    ∀ (items : List AdaptItem) (acc : String),
      ∃ tail, (consumeAdapter cb hist acc items).2 = hist ++ tail := by
  intro items
  induction items with
  | nil => intro acc; exact ⟨[], by simp [consumeAdapter]⟩
  | cons it rest ih =>
    intro acc
    cases it with
    | tok s =>
      cases cb with
      | none => simpa [consumeAdapter] using ih (acc ++ s)
      | some f =>
        cases hfs : f s with
        | none => simpa [consumeAdapter, hfs] using ih (acc ++ s)
        | some e => exact ⟨[], by simp [consumeAdapter, hfs]⟩
    | fin a =>
      cases a with
      | none => exact ⟨[], by simp [consumeAdapter]⟩
      | some t => exact ⟨[⟨"assistant", t⟩], by simp [consumeAdapter]⟩

/-- Whatever the stream and callback do, one `generate_response` call leaves
the history equal to the old history, then the user entry, then possibly an
assistant entry. -/
theorem generate_response_history (hist : List Msg) (t : String)
    (evs : List GenEvent) (cb : Option (String → Option PyErr)) :
    ∃ tail, (generate_response hist t evs cb).2 = hist ++ ⟨"user", t⟩ :: tail := by
  obtain ⟨tail, htail⟩ := consumeAdapter_history cb (hist ++ [⟨"user", t⟩])
    (adapterItems (chatItems "" evs)) ""
  refine ⟨tail, ?_⟩
  rw [generate_response, htail, List.append_assoc]
  rfl

/-- The ASR stage never touches the conversation history (it lives in the
Ollama client, not in the Whisper engine). -/
theorem process_audio_chunk_history (cfg : WhisperConfig) (cbs : Callbacks)
    (st : OrchState) (chunk : List ℚ) (env : TurnEnv) :
    (process_audio_chunk cfg cbs st chunk env).2.1.history = st.history := by
  rw [process_audio_chunk]
  repeat' split
  all_goals rfl

/-- The turn body only ever appends to the history, and as soon as the
generation engine has been invoked the first appended entry is the user
entry. -/
theorem turnBody_history (cfg : WhisperConfig) (cbs : Callbacks) (st : OrchState)
    (chunk : List ℚ) (env : TurnEnv) :
    ∃ tail, (turnBody cfg cbs st chunk env).2.1.history = st.history ++ tail ∧
      (1 ≤ (turnBody cfg cbs st chunk env).2.2.gen →
        ∃ t tail2, tail = ⟨"user", t⟩ :: tail2) := by
  rw [turnBody.eq_def]
  rcases hpac : process_audio_chunk cfg cbs st chunk env with ⟨r1, st1, n⟩
  have hh1 : st1.history = st.history := by
    have h := process_audio_chunk_history cfg cbs st chunk env
    rw [hpac] at h
    exact h
  cases r1 with
  | error e =>
    refine ⟨[], by simp [hh1], ?_⟩
    intro h
    simp at h
  | ok user_text =>
    cases user_text with
    | none =>
      refine ⟨[], by simp [hh1], ?_⟩
      intro h
      simp at h
    | some t =>
      by_cases ht0 : t = ""
      · simp only [if_pos ht0]
        refine ⟨[], by simp [hh1], ?_⟩
        intro h
        simp at h
      · simp only [if_neg ht0]
        obtain ⟨tl, htl⟩ := generate_response_history st1.history t env.gen_events
          cbs.on_response_text
        rcases hgr : generate_response st1.history t env.gen_events cbs.on_response_text
          with ⟨gr, hist1⟩
        rw [hgr] at htl
        simp only at htl
        cases gr with
        | error e =>
          exact ⟨⟨"user", t⟩ :: tl, by simp [htl, hh1], fun _ => ⟨t, tl, rfl⟩⟩
        | ok response =>
          by_cases hr0 : response = ""
          · simp only [if_pos hr0]
            exact ⟨⟨"user", t⟩ :: tl, by simp [htl, hh1], fun _ => ⟨t, tl, rfl⟩⟩
          · simp only [if_neg hr0]
            rcases hsy : synthesize_speech cbs response env with ⟨sr, m⟩
            cases sr with
            | error e =>
              exact ⟨⟨"user", t⟩ :: tl, by simp [htl, hh1], fun _ => ⟨t, tl, rfl⟩⟩
            | ok audio =>
              exact ⟨⟨"user", t⟩ :: tl, by simp [htl, hh1], fun _ => ⟨t, tl, rfl⟩⟩

/-- C9.  Recoverable turn failure without rollback: whenever any stage of
`process_conversation_turn` raises, the `finally:` block has reset the
processing flag (so the next turn-start is accepted, not dropped as
in-flight), and all history entries committed before the failing stage
remain — the history is the old history plus appended entries, and once the
generation engine was invoked the first appended entry is the user entry
committed before generation. -/
theorem recoverable_turn_failure (cfg : WhisperConfig) (cbs : Callbacks)
    (st : OrchState) (chunk : List ℚ) (env : TurnEnv) (e : PyErr)
    (hp : st.processing = false)
    (he : (process_conversation_turn cfg cbs st chunk env).1 = .error e) :
    (process_conversation_turn cfg cbs st chunk env).2.1.processing = false ∧
    (∃ tail, (process_conversation_turn cfg cbs st chunk env).2.1.history
        = st.history ++ tail) ∧
    (1 ≤ (process_conversation_turn cfg cbs st chunk env).2.2.gen →
      ∃ t tail2, (process_conversation_turn cfg cbs st chunk env).2.1.history
        = st.history ++ ⟨"user", t⟩ :: tail2) := by
  rw [process_conversation_turn_eq cfg cbs st chunk env hp]
  obtain ⟨tail, h1, h2⟩ := turnBody_history cfg cbs { st with processing := true } chunk env
  refine ⟨rfl, ⟨tail, by simpa using h1⟩, ?_⟩
  intro hg
  obtain ⟨t, tl2, htl⟩ := h2 (by simpa using hg)
  refine ⟨t, tl2, ?_⟩
  rw [htl] at h1
  simpa using h1

/-- Witness for `recoverable_turn_failure` at a concrete input: the
per-token display callback raises during generation; the flag is reset and
the committed user entry survives with no assistant reply. -/
theorem recoverable_turn_failure_witness :
    (process_conversation_turn { sample_rate := 1, chunk_length := 0 }
        ⟨none, some (fun _ => some "boom"), none⟩
        ⟨false, true, [], ⟨[], none, false⟩⟩ [1]
        ⟨0, fun _ => .ok "ciao", [.token "x"], fun _ => .ok [5]⟩).1 = .error "boom" ∧
    ((process_conversation_turn { sample_rate := 1, chunk_length := 0 }
        ⟨none, some (fun _ => some "boom"), none⟩
        ⟨false, true, [], ⟨[], none, false⟩⟩ [1]
        ⟨0, fun _ => .ok "ciao", [.token "x"], fun _ => .ok [5]⟩).2.1.processing = false ∧
     (∃ tail, (process_conversation_turn { sample_rate := 1, chunk_length := 0 }
        ⟨none, some (fun _ => some "boom"), none⟩
        ⟨false, true, [], ⟨[], none, false⟩⟩ [1]
        ⟨0, fun _ => .ok "ciao", [.token "x"], fun _ => .ok [5]⟩).2.1.history
          = ([] : List Msg) ++ tail) ∧
     (1 ≤ (process_conversation_turn { sample_rate := 1, chunk_length := 0 }
        ⟨none, some (fun _ => some "boom"), none⟩
        ⟨false, true, [], ⟨[], none, false⟩⟩ [1]
        ⟨0, fun _ => .ok "ciao", [.token "x"], fun _ => .ok [5]⟩).2.2.gen →
      ∃ t tail2, (process_conversation_turn { sample_rate := 1, chunk_length := 0 }
        ⟨none, some (fun _ => some "boom"), none⟩
        ⟨false, true, [], ⟨[], none, false⟩⟩ [1]
        ⟨0, fun _ => .ok "ciao", [.token "x"], fun _ => .ok [5]⟩).2.1.history
          = ([] : List Msg) ++ ⟨"user", t⟩ :: tail2)) := by
  have htrig : (process_audio { sample_rate := 1, chunk_length := 0 }
      (⟨[], none, false⟩ : EngineState) [1] 0).1 = true := by
    norm_num [process_audio, should_transcribe, append_audio, get_buffer_duration,
      detect_voice_activity]
  have hstrip : pyStrip "ciao" = "ciao" := by decide
  have hpac : process_audio_chunk { sample_rate := 1, chunk_length := 0 }
      ⟨none, some (fun _ => some "boom"), none⟩
      ⟨true, true, [], ⟨[], none, false⟩⟩ [1]
      ⟨0, fun _ => .ok "ciao", [.token "x"], fun _ => .ok [5]⟩
      = (.ok (some "ciao"), ⟨true, true, [], ⟨[], none, false⟩⟩, 1) := by
    rw [process_audio_chunk_triggered { sample_rate := 1, chunk_length := 0 }
      ⟨none, some (fun _ => some "boom"), none⟩
      ⟨true, true, [], ⟨[], none, false⟩⟩ [1]
      ⟨0, fun _ => .ok "ciao", [.token "x"], fun _ => .ok [5]⟩ "ciao"
      rfl rfl (by simp) htrig rfl]
    rw [hstrip]
    simp [clear_buffer]
  have hb : turnBody { sample_rate := 1, chunk_length := 0 }
      ⟨none, some (fun _ => some "boom"), none⟩
      ⟨true, true, [], ⟨[], none, false⟩⟩ [1]
      ⟨0, fun _ => .ok "ciao", [.token "x"], fun _ => .ok [5]⟩
      = (.error "boom", ⟨true, true, [⟨"user", "ciao"⟩], ⟨[], none, false⟩⟩, ⟨1, 1, 0⟩) := by
    rw [turnBody.eq_def, hpac]
    rfl
  have hfull : process_conversation_turn { sample_rate := 1, chunk_length := 0 }
      ⟨none, some (fun _ => some "boom"), none⟩
      ⟨false, true, [], ⟨[], none, false⟩⟩ [1]
      ⟨0, fun _ => .ok "ciao", [.token "x"], fun _ => .ok [5]⟩
      = (.error "boom", ⟨false, true, [⟨"user", "ciao"⟩], ⟨[], none, false⟩⟩, ⟨1, 1, 0⟩) := by
    rw [process_conversation_turn_eq { sample_rate := 1, chunk_length := 0 }
      ⟨none, some (fun _ => some "boom"), none⟩
      ⟨false, true, [], ⟨[], none, false⟩⟩ [1]
      ⟨0, fun _ => .ok "ciao", [.token "x"], fun _ => .ok [5]⟩ rfl, hb]
  have herr : (process_conversation_turn { sample_rate := 1, chunk_length := 0 }
      ⟨none, some (fun _ => some "boom"), none⟩
      ⟨false, true, [], ⟨[], none, false⟩⟩ [1]
      ⟨0, fun _ => .ok "ciao", [.token "x"], fun _ => .ok [5]⟩).1 = .error "boom" := by
    rw [hfull]
  exact ⟨herr, recoverable_turn_failure { sample_rate := 1, chunk_length := 0 }
    ⟨none, some (fun _ => some "boom"), none⟩
    ⟨false, true, [], ⟨[], none, false⟩⟩ [1]
    ⟨0, fun _ => .ok "ciao", [.token "x"], fun _ => .ok [5]⟩ "boom" rfl herr⟩

/-- One unvoiced chunk while speech is active and the silence timer runs
from `t0`, with the buffer (after append) between the too-short guard and
the buffer-full trigger: the verdict is exactly whether the elapsed silence
reaches `silence_duration`, and the VAD state is unchanged apart from the
appended buffer. -/
theorem process_audio_silence_step (cfg : WhisperConfig) (s : EngineState)
    (c : List ℚ) (now t0 : ℚ)
    (hact : s.speech_active = true) (hsil : s.silence_start = some t0)
    (hunv : detect_voice_activity cfg c = false)
    (hmin : cfg.min_speech_duration
        ≤ ((s.buffer.length : ℚ) + (c.length : ℚ)) / cfg.sample_rate)
    (hmax : ((s.buffer.length : ℚ) + (c.length : ℚ)) / cfg.sample_rate
        < cfg.chunk_length) :
    process_audio cfg s c now
      = (decide (now - t0 ≥ cfg.silence_duration), { s with buffer := s.buffer ++ c }) := by
  simp only [process_audio, should_transcribe, append_audio, get_buffer_duration,
    List.length_append, Nat.cast_add, hunv, hact, hsil]
  rw [if_neg (not_le.mpr hmax), if_neg (not_lt.mpr hmin)]
  by_cases hc : now - t0 ≥ cfg.silence_duration
  · simp [hc]
  · simp [hc]

/-- The first unvoiced chunk after active speech (no silence timer yet),
with the buffer between the two size triggers: no finalization, and the
silence timer is started at the current time. -/
theorem process_audio_silence_begin (cfg : WhisperConfig) (s : EngineState)
    (c : List ℚ) (now : ℚ)
    (hact : s.speech_active = true) (hsil : s.silence_start = none)
    (hunv : detect_voice_activity cfg c = false)
    (hmin : cfg.min_speech_duration
        ≤ ((s.buffer.length : ℚ) + (c.length : ℚ)) / cfg.sample_rate)
    (hmax : ((s.buffer.length : ℚ) + (c.length : ℚ)) / cfg.sample_rate
        < cfg.chunk_length) :
    process_audio cfg s c now
      = (false, { s with buffer := s.buffer ++ c, silence_start := some now }) := by
  simp only [process_audio, should_transcribe, append_audio, get_buffer_duration,
    List.length_append, Nat.cast_add, hunv, hact, hsil]
  rw [if_neg (not_le.mpr hmax), if_neg (not_lt.mpr hmin)]
  simp

/-- An unvoiced chunk while speech is not active never finalizes (as long as
the buffer stays below the buffer-full trigger) and leaves the VAD state
unchanged apart from the appended buffer. -/
theorem process_audio_inactive_step (cfg : WhisperConfig) (s : EngineState)
    (c : List ℚ) (now : ℚ)
    (hact : s.speech_active = false)
    (hunv : detect_voice_activity cfg c = false)
    (hmax : ((s.buffer.length : ℚ) + (c.length : ℚ)) / cfg.sample_rate
        < cfg.chunk_length) :
    process_audio cfg s c now = (false, { s with buffer := s.buffer ++ c }) := by
  simp only [process_audio, should_transcribe, append_audio, get_buffer_duration,
    List.length_append, Nat.cast_add, hunv, hact]
  rw [if_neg (not_le.mpr hmax)]
  by_cases hmin : ((s.buffer.length : ℚ) + (c.length : ℚ)) / cfg.sample_rate
      < cfg.min_speech_duration
  · simp [hmin]
  · simp [hmin]

/-- Driving the segmenter with unvoiced chunks while the silence timer runs
from `t0`: each chunk's verdict is exactly whether its timestamp is at least
`silence_duration` past `t0`, and the VAD state persists (speech active,
timer at `t0`) while the buffer grows by the fed samples. -/
theorem runChunks_silence_timer (cfg : WhisperConfig) (hrate : 0 < cfg.sample_rate) :
    ∀ (evs : List (List ℚ × ℚ)) (s : EngineState) (t0 : ℚ),
      s.speech_active = true → s.silence_start = some t0 →
      (∀ p ∈ evs, detect_voice_activity cfg p.1 = false) →
      cfg.min_speech_duration ≤ (s.buffer.length : ℚ) / cfg.sample_rate →
      ((s.buffer.length : ℚ) + (totalLen evs : ℚ)) / cfg.sample_rate < cfg.chunk_length →
      (runChunks cfg s evs).2
          = evs.map (fun p => decide (p.2 - t0 ≥ cfg.silence_duration)) ∧
        (runChunks cfg s evs).1.speech_active = true ∧
        (runChunks cfg s evs).1.silence_start = some t0 ∧
        ((runChunks cfg s evs).1.buffer.length : ℚ)
          = (s.buffer.length : ℚ) + (totalLen evs : ℚ) := by
  intro evs
  induction evs with
  | nil =>
    intro s t0 hact hsil _ _ _
    refine ⟨rfl, hact, hsil, ?_⟩
    simp [runChunks, totalLen]
  | cons p rest ih =>
    rcases p with ⟨c, t⟩
    intro s t0 hact hsil hunv hmin hmax
    have hlenc : (0 : ℚ) ≤ (c.length : ℚ) := by positivity
    have hlenr : (0 : ℚ) ≤ (totalLen rest : ℚ) := by positivity
    have htot : (totalLen ((c, t) :: rest) : ℚ) = (c.length : ℚ) + (totalLen rest : ℚ) := by
      simp [totalLen]
    rw [htot] at hmax
    have hminstep : cfg.min_speech_duration
        ≤ ((s.buffer.length : ℚ) + (c.length : ℚ)) / cfg.sample_rate := by
      refine le_trans hmin ((div_le_div_iff_of_pos_right hrate).mpr (by linarith))
    have hmaxstep : ((s.buffer.length : ℚ) + (c.length : ℚ)) / cfg.sample_rate
        < cfg.chunk_length := by
      refine lt_of_le_of_lt ((div_le_div_iff_of_pos_right hrate).mpr (by linarith)) hmax
    have hstep := process_audio_silence_step cfg s c t t0 hact hsil
      (hunv (c, t) (List.mem_cons_self _ _)) hminstep hmaxstep
    have hunvr : ∀ q ∈ rest, detect_voice_activity cfg q.1 = false := by
      intro q hq; exact hunv q (List.mem_cons_of_mem _ hq)
    have hmin' : cfg.min_speech_duration
        ≤ (({ s with buffer := s.buffer ++ c } : EngineState).buffer.length : ℚ)
          / cfg.sample_rate := by
      simp only [List.length_append, Nat.cast_add]
      exact hminstep
    have hmax' : ((({ s with buffer := s.buffer ++ c } : EngineState).buffer.length : ℚ)
          + (totalLen rest : ℚ)) / cfg.sample_rate < cfg.chunk_length := by
      simp only [List.length_append, Nat.cast_add]
      calc ((s.buffer.length : ℚ) + (c.length : ℚ) + (totalLen rest : ℚ)) / cfg.sample_rate
          = ((s.buffer.length : ℚ) + ((c.length : ℚ) + (totalLen rest : ℚ)))
            / cfg.sample_rate := by ring_nf
        _ < cfg.chunk_length := hmax
    obtain ⟨ihres, ihact, ihsil, ihlen⟩ :=
      ih { s with buffer := s.buffer ++ c } t0 hact hsil hunvr hmin' hmax'
    refine ⟨?_, ?_, ?_, ?_⟩
    · simp only [runChunks, hstep, ihres, List.map]
    · simp only [runChunks, hstep, ihact]
    · simp only [runChunks, hstep, ihsil]
    · simp only [runChunks, hstep, ihlen]
      simp only [List.length_append, Nat.cast_add, htot]
      ring

/-- After finalization cleared the state, feeding unvoiced chunks (below
the buffer-full trigger) never produces another finalization verdict: the
utterance triggers at most once. -/
theorem runChunks_inactive (cfg : WhisperConfig) (hrate : 0 < cfg.sample_rate) :
    ∀ (evs : List (List ℚ × ℚ)) (s : EngineState),
      s.speech_active = false →
      (∀ p ∈ evs, detect_voice_activity cfg p.1 = false) →
      ((s.buffer.length : ℚ) + (totalLen evs : ℚ)) / cfg.sample_rate < cfg.chunk_length →
      (∀ b ∈ (runChunks cfg s evs).2, b = false) ∧
        (runChunks cfg s evs).1.speech_active = false ∧
        ((runChunks cfg s evs).1.buffer.length : ℚ)
          = (s.buffer.length : ℚ) + (totalLen evs : ℚ) := by
  intro evs
  induction evs with
  | nil =>
    intro s hact _ _
    refine ⟨by simp [runChunks], hact, by simp [runChunks, totalLen]⟩
  | cons p rest ih =>
    rcases p with ⟨c, t⟩
    intro s hact hunv hmax
    have htot : (totalLen ((c, t) :: rest) : ℚ) = (c.length : ℚ) + (totalLen rest : ℚ) := by
      simp [totalLen]
    rw [htot] at hmax
    have hlenr : (0 : ℚ) ≤ (totalLen rest : ℚ) := by positivity
    have hmaxstep : ((s.buffer.length : ℚ) + (c.length : ℚ)) / cfg.sample_rate
        < cfg.chunk_length := by
      refine lt_of_le_of_lt ((div_le_div_iff_of_pos_right hrate).mpr (by linarith)) hmax
    have hstep := process_audio_inactive_step cfg s c t hact
      (hunv (c, t) (List.mem_cons_self _ _)) hmaxstep
    have hunvr : ∀ q ∈ rest, detect_voice_activity cfg q.1 = false := by
      intro q hq; exact hunv q (List.mem_cons_of_mem _ hq)
    have hmax' : ((({ s with buffer := s.buffer ++ c } : EngineState).buffer.length : ℚ)
          + (totalLen rest : ℚ)) / cfg.sample_rate < cfg.chunk_length := by
      simp only [List.length_append, Nat.cast_add]
      calc ((s.buffer.length : ℚ) + (c.length : ℚ) + (totalLen rest : ℚ)) / cfg.sample_rate
          = ((s.buffer.length : ℚ) + ((c.length : ℚ) + (totalLen rest : ℚ)))
            / cfg.sample_rate := by ring_nf
        _ < cfg.chunk_length := hmax
    obtain ⟨ihres, ihact, ihlen⟩ := ih { s with buffer := s.buffer ++ c } hact hunvr hmax'
    refine ⟨?_, ?_, ?_⟩
    · intro b hb
      have hres : (runChunks cfg s ((c, t) :: rest)).2
          = false :: (runChunks cfg { s with buffer := s.buffer ++ c } rest).2 := by
        simp only [runChunks, hstep]
      rw [hres] at hb
      rcases List.mem_cons.mp hb with hb1 | hb1
      · exact hb1
      · exact ihres b hb1
    · simp only [runChunks, hstep, ihact]
    · simp only [runChunks, hstep, ihlen]
      simp only [List.length_append, Nat.cast_add, htot]
      ring

/-- C3.  Segmenter silence trigger, at the default configuration (RMS
threshold 0.02, min speech 0.3 s, max chunk 30 s, silence 1.5 s).  From a
state where speech is active, no silence timer runs yet, the buffered
duration is at least the minimum speech duration, and the fed unvoiced
chunks keep the buffer below the maximum chunk length: the first unvoiced
chunk starts the silence timer and never finalizes, and each subsequent
unvoiced chunk finalizes exactly when its timestamp is at least
`silence_duration` past the timer start — so the trigger never fires while
the continuous silence is shorter than 1.5 s and fires once it reaches it.
And once the triggered transcription clears the state, further unvoiced
chunks below the buffer-full bound never fire again: at most one
finalization per utterance. -/
theorem segmenter_silence_trigger (s0 : EngineState) (c1 : List ℚ) (t1 : ℚ)
    (rest : List (List ℚ × ℚ))
    (hact : s0.speech_active = true) (hsil : s0.silence_start = none)
    (hunv : ∀ p ∈ (c1, t1) :: rest, detect_voice_activity defaultWhisperConfig p.1 = false)
    (hmin : defaultWhisperConfig.min_speech_duration
        ≤ (s0.buffer.length : ℚ) / defaultWhisperConfig.sample_rate)
    (hmax : ((s0.buffer.length : ℚ) + (totalLen ((c1, t1) :: rest) : ℚ))
        / defaultWhisperConfig.sample_rate < defaultWhisperConfig.chunk_length) :
    (runChunks defaultWhisperConfig s0 ((c1, t1) :: rest)).2
      = false :: rest.map
          (fun p => decide (p.2 - t1 ≥ defaultWhisperConfig.silence_duration)) ∧
    (∀ evs2 : List (List ℚ × ℚ),
      (∀ p ∈ evs2, detect_voice_activity defaultWhisperConfig p.1 = false) →
      (totalLen evs2 : ℚ) / defaultWhisperConfig.sample_rate
          < defaultWhisperConfig.chunk_length →
      ∀ b ∈ (runChunks defaultWhisperConfig
          (clear_buffer (runChunks defaultWhisperConfig s0 ((c1, t1) :: rest)).1)
          evs2).2, b = false) := by
  have hrate : (0 : ℚ) < defaultWhisperConfig.sample_rate := by
    norm_num [defaultWhisperConfig]
  have hlenc : (0 : ℚ) ≤ (c1.length : ℚ) := by positivity
  have hlenr : (0 : ℚ) ≤ (totalLen rest : ℚ) := by positivity
  have htot : (totalLen ((c1, t1) :: rest) : ℚ)
      = (c1.length : ℚ) + (totalLen rest : ℚ) := by
    simp [totalLen]
  rw [htot] at hmax
  have hminstep : defaultWhisperConfig.min_speech_duration
      ≤ ((s0.buffer.length : ℚ) + (c1.length : ℚ)) / defaultWhisperConfig.sample_rate :=
    le_trans hmin ((div_le_div_iff_of_pos_right hrate).mpr (by linarith))
  have hmaxstep : ((s0.buffer.length : ℚ) + (c1.length : ℚ)) / defaultWhisperConfig.sample_rate
      < defaultWhisperConfig.chunk_length :=
    lt_of_le_of_lt ((div_le_div_iff_of_pos_right hrate).mpr (by linarith)) hmax
  have hstep := process_audio_silence_begin defaultWhisperConfig s0 c1 t1 hact hsil
    (hunv (c1, t1) (List.mem_cons_self _ _)) hminstep hmaxstep
  have hunvr : ∀ q ∈ rest, detect_voice_activity defaultWhisperConfig q.1 = false := by
    intro q hq; exact hunv q (List.mem_cons_of_mem _ hq)
  have hmin' : defaultWhisperConfig.min_speech_duration
      ≤ ((({ s0 with buffer := s0.buffer ++ c1, silence_start := some t1 }
          : EngineState).buffer.length : ℚ)) / defaultWhisperConfig.sample_rate := by
    simp only [List.length_append, Nat.cast_add]
    exact hminstep
  have hmax' : ((({ s0 with buffer := s0.buffer ++ c1, silence_start := some t1 }
        : EngineState).buffer.length : ℚ) + (totalLen rest : ℚ))
        / defaultWhisperConfig.sample_rate < defaultWhisperConfig.chunk_length := by
    simp only [List.length_append, Nat.cast_add]
    calc ((s0.buffer.length : ℚ) + (c1.length : ℚ) + (totalLen rest : ℚ))
          / defaultWhisperConfig.sample_rate
        = ((s0.buffer.length : ℚ) + ((c1.length : ℚ) + (totalLen rest : ℚ)))
          / defaultWhisperConfig.sample_rate := by ring_nf
      _ < defaultWhisperConfig.chunk_length := hmax
  obtain ⟨htimer, htact, htsil, htlen⟩ := runChunks_silence_timer defaultWhisperConfig hrate
    rest { s0 with buffer := s0.buffer ++ c1, silence_start := some t1 } t1
    hact rfl hunvr hmin' hmax'
  constructor
  · simp only [runChunks, hstep, htimer]
  · intro evs2 hunv2 hmax2
    have hclear : ∀ x : EngineState, clear_buffer x = ⟨[], none, false⟩ := fun _ => rfl
    have hmax2' : (((⟨[], none, false⟩ : EngineState).buffer.length : ℚ)
          + (totalLen evs2 : ℚ)) / defaultWhisperConfig.sample_rate
        < defaultWhisperConfig.chunk_length := by
      simpa using hmax2
    obtain ⟨hres, _, _⟩ := runChunks_inactive defaultWhisperConfig hrate evs2
      ⟨[], none, false⟩ rfl hunv2 hmax2'
    intro b hb
    exact hres b (by rw [hclear] at hb; exact hb)

/-- Witness for `segmenter_silence_trigger` at a concrete input: 0.3 s of
buffered speech at 16 kHz, then two unvoiced chunks 0.5 s and 2.5 s into
silence — no trigger, then the trigger. -/
theorem segmenter_silence_trigger_witness :
    defaultWhisperConfig.min_speech_duration
      ≤ (((List.replicate 4800 (0 : ℚ)).length : ℚ)) / defaultWhisperConfig.sample_rate ∧
    (runChunks defaultWhisperConfig ⟨List.replicate 4800 (0 : ℚ), none, true⟩
        [([0], 100), ([0], 102)]).2 = [false, true] := by
  have hu : detect_voice_activity defaultWhisperConfig [0] = false := by
    rw [detect_voice_activity, if_neg (by simp [defaultWhisperConfig])]
    exact decide_eq_false (by norm_num [defaultWhisperConfig])
  have hmin : defaultWhisperConfig.min_speech_duration
      ≤ (((List.replicate 4800 (0 : ℚ)).length : ℚ)) / defaultWhisperConfig.sample_rate := by
    norm_num [defaultWhisperConfig]
  have hmax : ((((List.replicate 4800 (0 : ℚ)).length : ℚ))
        + (totalLen [(([0] : List ℚ), (100 : ℚ)), ([0], 102)] : ℚ))
        / defaultWhisperConfig.sample_rate < defaultWhisperConfig.chunk_length := by
    norm_num [defaultWhisperConfig, totalLen]
  have h := segmenter_silence_trigger ⟨List.replicate 4800 (0 : ℚ), none, true⟩ [0] 100
    [([0], 102)] rfl rfl
    (by
      intro p hp
      simp only [List.mem_cons, List.not_mem_nil, or_false] at hp
      rcases hp with rfl | rfl
      · exact hu
      · exact hu)
    hmin hmax
  refine ⟨hmin, ?_⟩
  rw [h.1]
  simp [show ((102 : ℚ) - 100 ≥ defaultWhisperConfig.silence_duration) from
    by norm_num [defaultWhisperConfig]]
